import Mathlib

/-!
Shallow embedding of `crates/ra_ide/src/completion/complete_trait_impl.rs`
(the "implement missing trait members" completion feature).

Syntactic (ast) data is modelled by explicit inductive types; semantic (hir)
entities carry the data the code reads from the database (`name`, `docs`,
`params`, ...) directly as fields, since every database access in the source
is a read-only query over an immutable snapshot.  Fallible accessors become
`Option` fields, exactly as in the source (`impl_f.name()` is an
`Option<ast::Name>`, a const's hir name is an `Option<Name>`, ...).
-/

/-- Completion source kind; only `Magic` is used by this module (source:
`CompletionKind::Magic`). -/
inductive CompletionKind where
  | Keyword
  | Reference
  | Snippet
  | Magic
deriving DecidableEq

/-- Kind tag carried on a completion item (source: `CompletionItemKind`);
the variants used by this module are `Function`, `Method` and `TypeAlias`. -/
inductive CompletionItemKind where
  | Function
  | Method
  | TypeAlias
  | Const
  | Struct
deriving DecidableEq

/-- A produced completion candidate (source: `CompletionItem` as assembled by
the builder chain `CompletionItem::new(..).lookup_by(..).set_documentation(..)
.insert_text(..).kind(..)`). -/
structure CompletionItem where
  completion_kind : CompletionKind
  source_range : Nat × Nat
  label : String
  lookup : Option String
  documentation : Option String
  insert_text : Option String
  kind : Option CompletionItemKind
deriving DecidableEq

/-- The accumulator the feature appends to (source: `Completions`, a vector
of `CompletionItem` with an `add_to` append operation). -/
abbrev Completions := List CompletionItem

/-- A syntactic member of an impl block's item list (source:
`ast::ImplItem`, variants `FnDef`, `ConstDef`, `TypeAliasDef`).  Each carries
its optional name node rendered to text (`impl_item.name()` followed by
`n.syntax().to_string()` in the source). -/
inductive ImplItem where
  | FnDef (name : Option String)
  | ConstDef (name : Option String)
  | TypeAliasDef (name : Option String)
deriving DecidableEq

/-- The member-list container of an impl block (source: `ast::ItemList`,
accessed through `item_list.impl_items()`). -/
structure ItemList where
  impl_items : List ImplItem
deriving DecidableEq

/-- A textual path (source: `ast::Path`); only its identity matters here, the
semantic database resolves it. -/
abbrev AstPath := String

/-- A path type node (source: `ast::PathType`); its `path()` accessor is
fallible. -/
structure PathType where
  path : Option AstPath
deriving DecidableEq

/-- The target-trait type reference of an impl block (source: the
`ast::TypeRef` returned by `impl_block.target_trait()`); it may or may not be
castable to `ast::PathType`. -/
inductive TypeRefNode where
  | pathType (pt : PathType)
  | otherTypeRef
deriving DecidableEq

/-- Source: `ast::PathType::cast` on the target trait's syntax node; succeeds
exactly when the type reference is a path type. -/
def PathType.cast : TypeRefNode → Option PathType
  | TypeRefNode.pathType pt => some pt
  | TypeRefNode.otherTypeRef => none

/-- An impl block (source: `ast::ImplBlock` with the accessors
`target_trait()` and `item_list()`, both fallible). -/
structure ImplBlock where
  target_trait : Option TypeRefNode
  item_list : Option ItemList

/-- Semantic data of a trait function (source: `hir::Function`; fields are
the read-only database queries the module performs: `name`, `params`,
`has_self_param`, `docs`, plus the declared signature components that
`FunctionSignature::from_hir` renders). -/
structure HirFunction where
  name : String
  params : List String
  has_self_param : Bool
  docs : Option String
  generic_params : Option String
  ret_type : Option String
  where_clause : Option String
deriving DecidableEq

/-- Semantic data of a trait const (source: `hir::Const`; note its `name` is
optional, unlike functions and type aliases). -/
structure HirConst where
  name : Option String
  docs : Option String
deriving DecidableEq

/-- Semantic data of a trait associated type (source: `hir::TypeAlias`). -/
structure HirTypeAlias where
  name : String
  docs : Option String
deriving DecidableEq

/-- A trait member (source: `hir::AssocItem`, variants `Function`, `Const`,
`TypeAlias`). -/
inductive AssocItem where
  | Function (f : HirFunction)
  | Const (c : HirConst)
  | TypeAlias (t : HirTypeAlias)
deriving DecidableEq

/-- A resolved trait definition with its ordered member list (source:
`hir::Trait`; `target_trait.items(ctx.db)` returns this ordered sequence). -/
structure HirTrait where
  items : List AssocItem
deriving DecidableEq

/-- Source: `hir::ModuleDef`; only the `Trait` variant is relevant, every
other definition kind is collapsed into `OtherDef`. -/
inductive ModuleDef where
  | Trait (t : HirTrait)
  | OtherDef
deriving DecidableEq

/-- Source: `hir::PathResolution`; paths may resolve to a module-level
definition or to some other resolution kind (`NonDef`). -/
inductive PathResolution where
  | Def (d : ModuleDef)
  | NonDef
deriving DecidableEq

/-- The completion context (source: `CompletionContext`): the impl block
surrounding the cursor, the enclosing function body if the cursor is inside
one (source field `function_syntax`, modelled as `function_node` and only
queried through `is_some`), the cursor's source range, and the semantic
database's path resolution (`ctx.analyzer.resolve_path(ctx.db, _)`). -/
structure CompletionContext where
  impl_block : Option ImplBlock
  function_node : Option Unit
  source_range : Nat × Nat
  resolve_path : AstPath → Option PathResolution

/-- Modelled from the spec: the repository sources do not include
`crate::display::FunctionSignature`, only its use.  Spec section 4.3 fixes the
rendered form: the member's full declared signature (name, generic parameter
list if present, parameter list, return type, constraint clause if present)
with the constraint clause placed on its own line; the in-tree snapshot tests
(`generic_fn`, `generic_constrait_fn`) confirm this layout. -/
structure FunctionSignature where
  name : String
  generic_params : Option String
  params : List String
  ret_type : Option String
  where_clause : Option String

/-- Modelled from the spec: `FunctionSignature::from_hir` copies the declared
signature components of the hir function. -/
def FunctionSignature.from_hir (f : HirFunction) : FunctionSignature :=
  { name := f.name
  , generic_params := f.generic_params
  , params := f.params
  , ret_type := f.ret_type
  , where_clause := f.where_clause }

/-- Modelled from the spec: the `Display` rendering of a function signature
(`format!("{}", display)` in `add_function_impl`).  The constraint clause, if
present, goes on its own line after the rest of the signature. -/
def FunctionSignature.render (s : FunctionSignature) : String :=
  "fn " ++ s.name ++ s.generic_params.getD "" ++ "(" ++
    String.intercalate ", " s.params ++ ")" ++
    (match s.ret_type with
     | some t => " -> " ++ t
     | none => "") ++
    (match s.where_clause with
     | some w => "\n" ++ w
     | none => "")

/-- The candidate built by `add_function_impl` (lines 125-157 of the source):
label `fn <name>()` or `fn <name>(..)` depending on the parameter count,
lookup text equal to the label, documentation from the trait function, insert
text the rendered signature followed by an empty body, and kind `Method` or
`Function` depending on `has_self_param`. -/
def function_candidate (ctx : CompletionContext) (func : HirFunction) : CompletionItem :=
  let display := (FunctionSignature.from_hir func).render
  let func_name := func.name
  let label := if func.params.length > 0 then
      "fn " ++ func_name ++ "(..)"
    else
      "fn " ++ func_name ++ "()"
  let completion_kind := if func.has_self_param then
      CompletionItemKind.Method
    else
      CompletionItemKind.Function
  let snippet := display ++ " \x7b\x7d"
  { completion_kind := CompletionKind.Magic
  , source_range := ctx.source_range
  , label := label
  , lookup := some label
  , documentation := func.docs
  , insert_text := some snippet
  , kind := some completion_kind }

/-- Source: `add_function_impl`; builds the function candidate and appends it
to the accumulator (`add_to(acc)`). -/
def add_function_impl (acc : Completions) (ctx : CompletionContext)
    (func : HirFunction) : Completions :=
  acc ++ [function_candidate ctx func]

/-- The candidate built by `add_type_alias_impl` (lines 160-168 of the
source): label and insert text are both `type <name> = `, kind `TypeAlias`,
documentation from the trait's associated type; no lookup text is set. -/
def type_alias_candidate (ctx : CompletionContext) (type_alias : HirTypeAlias) : CompletionItem :=
  let snippet := "type " ++ type_alias.name ++ " = "
  { completion_kind := CompletionKind.Magic
  , source_range := ctx.source_range
  , label := snippet
  , lookup := none
  , documentation := type_alias.docs
  , insert_text := some snippet
  , kind := some CompletionItemKind.TypeAlias }

/-- Source: `add_type_alias_impl`; builds the type-alias candidate and
appends it to the accumulator. -/
def add_type_alias_impl (acc : Completions) (ctx : CompletionContext)
    (type_alias : HirTypeAlias) : Completions :=
  acc ++ [type_alias_candidate ctx type_alias]

/-- Source: lines 111-123, `resolve_target_trait`.  Reads the impl block's
target-trait type reference, casts it to a path type, extracts its path and
resolves it; only a resolution to a trait definition succeeds. -/
def resolve_target_trait (resolve_path : AstPath → Option PathResolution)
    (impl_block : ImplBlock) : Option HirTrait := do
  let pt ← impl_block.target_trait.bind PathType.cast
  let ast_path ← pt.path
  match resolve_path ast_path with
  | some (PathResolution.Def (ModuleDef.Trait t)) => some t
  | _ => none

/-- Source: the closure at lines 38-49 — an impl item suppresses a trait
function exactly when it is a `FnDef` whose name node is present and renders
to the same text. -/
def fn_name_match (f_name : String) : ImplItem → Bool
  | ImplItem.FnDef n =>
    match n with
    | some n => f_name == n
    | none => false
  | _ => false

/-- Source: the closure at lines 63-74 — an impl item suppresses a named
trait const exactly when it is a `ConstDef` whose name node is present and
renders to the same text. -/
def const_name_match (c_name : String) : ImplItem → Bool
  | ImplItem.ConstDef n =>
    match n with
    | some n => c_name == n
    | none => false
  | _ => false

/-- Source: the closure at lines 81-92 — an impl item suppresses a trait
associated type exactly when it is a `TypeAliasDef` whose name node is
present and renders to the same text. -/
def alias_name_match (t_name : String) : ImplItem → Bool
  | ImplItem.TypeAliasDef n =>
    match n with
    | some n => t_name == n
    | none => false
  | _ => false

/-- Source: the filter closure at lines 31-95 of `complete_trait_impl`.  A
trait member is missing when no impl item of the same syntactic kind carries
the same name text; a const without a name returns `false` early (it is never
reported missing). -/
def is_missing (item_list : ItemList) : AssocItem → Bool
  | AssocItem.Function f =>
    (item_list.impl_items.find? (fn_name_match f.name)).isNone
  | AssocItem.Const c =>
    match c.name with
    | none => false
    | some c_name => (item_list.impl_items.find? (const_name_match c_name)).isNone
  | AssocItem.TypeAlias t =>
    (item_list.impl_items.find? (alias_name_match t.name)).isNone

/-- Source: the body of the `for item in missing_items` loop at lines 97-103;
functions and type aliases dispatch to their synthesizers, consts fall into
the catch-all arm and produce nothing. -/
def process_item (ctx : CompletionContext) (acc : Completions) : AssocItem → Completions
  | AssocItem.Function f => add_function_impl acc ctx f
  | AssocItem.TypeAlias t => add_type_alias_impl acc ctx t
  | _ => acc

/-- Source: lines 8-104, `complete_trait_impl`.  The entry gate returns
silently unless the impl block and its item list exist and the cursor is not
inside a function; then the target trait is resolved (failure again returns
silently), the trait's items are filtered down to the missing ones, and each
missing item is dispatched in order.  The source computes both options first
and tests `item_list.is_none() || impl_block.is_none() ||
ctx.function_syntax.is_some()` in a single early return, which the nested
matches below reproduce observationally (every failing test yields `acc`). -/
def complete_trait_impl (acc : Completions) (ctx : CompletionContext) : Completions :=
  match ctx.impl_block with
  | none => acc
  | some impl_block =>
    match impl_block.item_list with
    | none => acc
    | some item_list =>
      if ctx.function_node.isSome then acc
      else
        match resolve_target_trait ctx.resolve_path impl_block with
        | none => acc
        | some target_trait =>
          let missing_items := target_trait.items.filter (is_missing item_list)
          missing_items.foldl (process_item ctx) acc

/-- Spec-side member kind of a trait member ("callable vs constant vs
associated-type" in spec section 3). -/
inductive MemberKind where
  | Callable
  | Constant
  | AssocType
deriving DecidableEq, BEq

/-- Spec-side kind of a trait member. -/
def AssocItem.memberKind : AssocItem → MemberKind
  | AssocItem.Function _ => MemberKind.Callable
  | AssocItem.Const _ => MemberKind.Constant
  | AssocItem.TypeAlias _ => MemberKind.AssocType

/-- Spec-side kind of an impl-block member. -/
def ImplItem.memberKind : ImplItem → MemberKind
  | ImplItem.FnDef _ => MemberKind.Callable
  | ImplItem.ConstDef _ => MemberKind.Constant
  | ImplItem.TypeAliasDef _ => MemberKind.AssocType

/-- Spec-side optional name text of a trait member. -/
def AssocItem.nameText : AssocItem → Option String
  | AssocItem.Function f => some f.name
  | AssocItem.Const c => c.name
  | AssocItem.TypeAlias t => some t.name

/-- Spec-side optional name text of an impl-block member. -/
def ImplItem.nameText : ImplItem → Option String
  | ImplItem.FnDef n => n
  | ImplItem.ConstDef n => n
  | ImplItem.TypeAliasDef n => n

/-- Spec-side match predicate (spec section 3 invariant): an implementation
member matches an interface member exactly when both have the same member
kind and carry identical name text; a member without a name never matches. -/
def specMatches (i : AssocItem) (j : ImplItem) : Bool :=
  (j.memberKind == i.memberKind) && i.nameText.isSome && (i.nameText == j.nameText)

/-- The per-item emission of the dispatch loop: functions and associated
types yield their synthesized candidate, consts yield nothing. -/
def candidate_for (ctx : CompletionContext) : AssocItem → Option CompletionItem
  | AssocItem.Function f => some (function_candidate ctx f)
  | AssocItem.TypeAlias t => some (type_alias_candidate ctx t)
  | AssocItem.Const _ => none

/-- Concrete fixture: the empty impl-block item list. -/
def itemListEmpty : ItemList := { impl_items := [] }

/-- Concrete fixture: a plain zero-parameter trait function `foo`. -/
def fooPlain : HirFunction :=
  { name := "foo", params := [], has_self_param := false, docs := none
  , generic_params := none, ret_type := none, where_clause := none }

/-- Concrete fixture: a trait declaring only `fn foo();`. -/
def traitPlain : HirTrait := { items := [AssocItem.Function fooPlain] }

/-- Concrete fixture: an empty impl block whose target trait is the path
`Test`. -/
def implBlockPlain : ImplBlock :=
  { target_trait := some (TypeRefNode.pathType { path := some "Test" })
  , item_list := some itemListEmpty }

/-- Concrete fixture: a completion context inside the empty impl block, with
`Test` resolving to `traitPlain`. -/
def ctxPlain : CompletionContext :=
  { impl_block := some implBlockPlain
  , function_node := none
  , source_range := (0, 0)
  , resolve_path := fun _ => some (PathResolution.Def (ModuleDef.Trait traitPlain)) }

/-- Concrete fixture: a zero-parameter generic trait function `fn foo<T>();`
(mirrors the in-tree `generic_fn` snapshot test). -/
def fooGeneric : HirFunction :=
  { name := "foo", params := [], has_self_param := false, docs := none
  , generic_params := some "<T>", ret_type := none, where_clause := none }

/-- Concrete fixture: a trait declaring only `fn foo<T>();`. -/
def traitGeneric : HirTrait := { items := [AssocItem.Function fooGeneric] }

/-- Concrete fixture: a completion context inside an empty impl block whose
target trait resolves to `traitGeneric`. -/
def ctxGeneric : CompletionContext :=
  { impl_block := some implBlockPlain
  , function_node := none
  , source_range := (0, 0)
  , resolve_path := fun _ => some (PathResolution.Def (ModuleDef.Trait traitGeneric)) }

/-- Concrete fixture: a context with no surrounding impl block. -/
def ctxNoBlock : CompletionContext :=
  { impl_block := none
  , function_node := none
  , source_range := (0, 0)
  , resolve_path := fun _ => none }

/-! Helper lemmas shared by the claim theorems. -/

/-- Pointwise-equal predicates agree on `List.any`. -/
theorem any_ext {α : Type} (p q : α → Bool) (h : ∀ a, p a = q a) :
    ∀ l : List α, l.any p = l.any q := by
  intro l
  induction l with
  | nil => rfl
  | cons a t ih => simp [List.any_cons, h a, ih]

/-- Failure of `List.find?` is exactly the negation of `List.any`. -/
theorem find_isNone_not_any {α : Type} (p : α → Bool) :
    ∀ l : List α, (l.find? p).isNone = !(l.any p) := by
  intro l
  induction l with
  | nil => rfl
  | cons a t ih => cases h : p a <;> simp [List.find?_cons, List.any_cons, h, ih]

/-- The source's function-name closure coincides with the spec-side match
predicate instantiated at a callable interface member. -/
theorem fn_match_eq_spec (f : HirFunction) :
    ∀ j : ImplItem, fn_name_match f.name j = specMatches (AssocItem.Function f) j := by
  intro j
  cases j with
  | FnDef n => cases n <;> rfl
  | ConstDef n => rfl
  | TypeAliasDef n => rfl

/-- The source's const-name closure coincides with the spec-side match
predicate instantiated at a named constant interface member. -/
theorem const_match_eq_spec (s : String) (d : Option String) :
    ∀ j : ImplItem,
      const_name_match s j = specMatches (AssocItem.Const { name := some s, docs := d }) j := by
  intro j
  cases j with
  | FnDef n => rfl
  | ConstDef n => cases n <;> rfl
  | TypeAliasDef n => rfl

/-- An unnamed constant interface member matches no implementation member
under the spec-side predicate. -/
theorem spec_const_none (d : Option String) :
    ∀ j : ImplItem, specMatches (AssocItem.Const { name := none, docs := d }) j = false := by
  intro j
  cases j with
  | FnDef n => rfl
  | ConstDef n => rfl
  | TypeAliasDef n => rfl

/-- The source's alias-name closure coincides with the spec-side match
predicate instantiated at an associated-type interface member. -/
theorem alias_match_eq_spec (t : HirTypeAlias) :
    ∀ j : ImplItem, alias_name_match t.name j = specMatches (AssocItem.TypeAlias t) j := by
  intro j
  cases j with
  | FnDef n => rfl
  | ConstDef n => rfl
  | TypeAliasDef n => cases n <;> rfl

/-- One step of the dispatch loop appends exactly the item's emission. -/
theorem process_item_eq (ctx : CompletionContext) (acc : Completions) (i : AssocItem) :
    process_item ctx acc i = acc ++ (candidate_for ctx i).toList := by
  cases i <;> simp [process_item, add_function_impl, add_type_alias_impl, candidate_for]

/-- The dispatch loop is an append of the emitted candidates, in order. -/
theorem foldl_process_item (ctx : CompletionContext) :
    ∀ (l : List AssocItem) (acc : Completions),
      l.foldl (process_item ctx) acc = acc ++ l.filterMap (candidate_for ctx) := by
  intro l
  induction l with
  | nil => intro acc; simp
  | cons i t ih =>
    intro acc
    rw [List.foldl_cons, ih, process_item_eq]
    cases h : candidate_for ctx i <;> simp [List.filterMap_cons, h, Option.toList]

/-- The source-side missing filter and the spec-side "no same-kind same-name
implementation member" filter select the same emitted candidates: the two
disagree only on unnamed constants, which emit nothing either way. -/
theorem filter_missing_spec (ctx : CompletionContext) (il : ItemList) :
    ∀ l : List AssocItem,
      (l.filter (is_missing il)).filterMap (candidate_for ctx)
        = (l.filter (fun i => !(il.impl_items.any (specMatches i)))).filterMap
            (candidate_for ctx) := by
  intro l
  induction l with
  | nil => rfl
  | cons i t ih =>
    cases i with
    | Function f =>
      have hmiss : is_missing il (AssocItem.Function f)
          = !(il.impl_items.any (specMatches (AssocItem.Function f))) := by
        show (il.impl_items.find? (fn_name_match f.name)).isNone = _
        rw [find_isNone_not_any, any_ext _ _ (fn_match_eq_spec f)]
      rw [List.filter_cons, List.filter_cons, hmiss]
      cases hb : !(il.impl_items.any (specMatches (AssocItem.Function f))) <;>
        simp [List.filterMap_cons, candidate_for, ih]
    | Const c =>
      cases c with
      | mk cname d =>
        cases cname with
        | none =>
          have hspec : il.impl_items.any
              (specMatches (AssocItem.Const { name := none, docs := d })) = false := by
            rw [any_ext _ (fun _ => false) (spec_const_none d)]
            simp
          have hmiss : is_missing il (AssocItem.Const { name := none, docs := d }) = false := rfl
          rw [List.filter_cons, List.filter_cons, hmiss, hspec]
          simp [List.filterMap_cons, candidate_for, ih]
        | some s =>
          have hmiss : is_missing il (AssocItem.Const { name := some s, docs := d })
              = !(il.impl_items.any (specMatches (AssocItem.Const { name := some s, docs := d }))) := by
            show (il.impl_items.find? (const_name_match s)).isNone = _
            rw [find_isNone_not_any, any_ext _ _ (const_match_eq_spec s d)]
          rw [List.filter_cons, List.filter_cons, hmiss]
          cases hb : !(il.impl_items.any
              (specMatches (AssocItem.Const { name := some s, docs := d }))) <;>
            simp [List.filterMap_cons, candidate_for, ih]
    | TypeAlias ta =>
      have hmiss : is_missing il (AssocItem.TypeAlias ta)
          = !(il.impl_items.any (specMatches (AssocItem.TypeAlias ta))) := by
        show (il.impl_items.find? (alias_name_match ta.name)).isNone = _
        rw [find_isNone_not_any, any_ext _ _ (alias_match_eq_spec ta)]
      rw [List.filter_cons, List.filter_cons, hmiss]
      cases hb : !(il.impl_items.any (specMatches (AssocItem.TypeAlias ta))) <;>
        simp [List.filterMap_cons, candidate_for, ih]

/-- Under a passing entry gate and a resolved target trait, the operation is
the dispatch loop over the missing members. -/
theorem complete_unfold (acc : Completions) (ctx : CompletionContext)
    (ib : ImplBlock) (il : ItemList) (tt : HirTrait)
    (h1 : ctx.impl_block = some ib) (h2 : ib.item_list = some il)
    (h3 : ctx.function_node = none)
    (h4 : resolve_target_trait ctx.resolve_path ib = some tt) :
    complete_trait_impl acc ctx
      = (tt.items.filter (is_missing il)).foldl (process_item ctx) acc := by
  simp [complete_trait_impl, h1, h2, h3, h4]

/-- When target-trait resolution fails, the operation leaves the accumulator
unchanged, whatever the rest of the context looks like. -/
theorem complete_of_resolve_none (acc : Completions) (ctx : CompletionContext)
    (ib : ImplBlock) (h1 : ctx.impl_block = some ib)
    (h4 : resolve_target_trait ctx.resolve_path ib = none) :
    complete_trait_impl acc ctx = acc := by
  cases h2 : ib.item_list <;> cases h3 : ctx.function_node <;>
    simp [complete_trait_impl, h1, h2, h3, h4]

/-- The operation only ever appends: its output is the untouched input
accumulator followed by the candidates it would emit from an empty one. -/
theorem complete_trait_impl_append (acc : Completions) (ctx : CompletionContext) :
    complete_trait_impl acc ctx = acc ++ complete_trait_impl [] ctx := by
  cases h1 : ctx.impl_block with
  | none => simp [complete_trait_impl, h1]
  | some ib =>
    cases h2 : ib.item_list with
    | none => simp [complete_trait_impl, h1, h2]
    | some il =>
      cases h3 : ctx.function_node with
      | some u => simp [complete_trait_impl, h1, h2, h3]
      | none =>
        cases h4 : resolve_target_trait ctx.resolve_path ib with
        | none => simp [complete_trait_impl, h1, h2, h3, h4]
        | some tt => simp [complete_trait_impl, h1, h2, h3, h4, foldl_process_item]

/-! Claim theorems. -/

/-- C1: for every resolved trait and impl block that passes the entry gate,
the engine offers a candidate for exactly those trait members of callable or
associated-type kind that have no impl member of the same kind with identical
name text, in the trait's own member enumeration order (`filterMap` over
`tt.items` preserves that order; no re-sorting happens). -/
theorem c1_missing_members_offered_in_order (acc : Completions) (ctx : CompletionContext)
    (ib : ImplBlock) (il : ItemList) (tt : HirTrait)
    (h1 : ctx.impl_block = some ib) (h2 : ib.item_list = some il)
    (h3 : ctx.function_node = none)
    (h4 : resolve_target_trait ctx.resolve_path ib = some tt) :
    complete_trait_impl acc ctx
      = acc ++ (tt.items.filter (fun i => !(il.impl_items.any (specMatches i)))).filterMap
          (candidate_for ctx) := by
  rw [complete_unfold acc ctx ib il tt h1 h2 h3 h4, foldl_process_item,
    filter_missing_spec]

/-- Witness for C1: inside an empty impl block for a trait declaring only
`fn foo();`, the theorem applies with every hypothesis discharged by `rfl`. -/
theorem c1_missing_members_offered_in_order_witness :
    complete_trait_impl [] ctxPlain
      = [] ++ (traitPlain.items.filter
          (fun i => !(itemListEmpty.impl_items.any (specMatches i)))).filterMap
            (candidate_for ctxPlain) :=
  c1_missing_members_offered_in_order [] ctxPlain implBlockPlain itemListEmpty traitPlain
    rfl rfl rfl rfl

/-- C2: each of the three suppression closures accepts an impl member exactly
when that member is of the same syntactic kind and carries a present name
node with identical text — so kind alone, name alone, or a missing name never
suffices. -/
theorem c2_match_requires_kind_and_name (n : String) (j : ImplItem) :
    (fn_name_match n j = true ↔ j = ImplItem.FnDef (some n))
    ∧ (const_name_match n j = true ↔ j = ImplItem.ConstDef (some n))
    ∧ (alias_name_match n j = true ↔ j = ImplItem.TypeAliasDef (some n)) := by
  have base : ∀ a b : String, (a == b) = true ↔ b = a := by
    intro a b
    rw [beq_iff_eq]
    exact eq_comm
  refine ⟨?_, ?_, ?_⟩ <;>
    cases j with
    | FnDef m =>
      cases m <;> simp [fn_name_match, const_name_match, alias_name_match, base]
    | ConstDef m =>
      cases m <;> simp [fn_name_match, const_name_match, alias_name_match, base]
    | TypeAliasDef m =>
      cases m <;> simp [fn_name_match, const_name_match, alias_name_match, base]

/-- C3: the dispatch loop emits nothing for a constant trait member (both as
a loop step and as an emission), and an unnamed constant is already excluded
from the missing-set computation itself. -/
theorem c3_constants_never_offered (ctx : CompletionContext) (acc : Completions)
    (c : HirConst) (il : ItemList) (d : Option String) :
    process_item ctx acc (AssocItem.Const c) = acc
    ∧ candidate_for ctx (AssocItem.Const c) = none
    ∧ is_missing il (AssocItem.Const { name := none, docs := d }) = false :=
  ⟨rfl, rfl, rfl⟩

/-- C4: every failure mode of the entry gate or of target resolution — no
impl block, no item list, cursor inside a function, target-trait reference
absent, not a path type, path absent, or a path that does not resolve to a
trait — leaves the accumulator unchanged; the operation is total and exposes
no error channel. -/
theorem c4_failures_yield_no_candidates (acc : Completions) (ctx : CompletionContext)
    (h : ctx.impl_block = none
      ∨ (∃ ib, ctx.impl_block = some ib ∧ ib.item_list = none)
      ∨ ctx.function_node.isSome = true
      ∨ (∃ ib, ctx.impl_block = some ib ∧
          (ib.target_trait = none
           ∨ (∃ tr, ib.target_trait = some tr ∧ PathType.cast tr = none)
           ∨ (∃ pt, ib.target_trait = some (TypeRefNode.pathType pt) ∧ pt.path = none)
           ∨ (∃ pt p, ib.target_trait = some (TypeRefNode.pathType pt) ∧ pt.path = some p
                ∧ ∀ t : HirTrait,
                    ctx.resolve_path p ≠ some (PathResolution.Def (ModuleDef.Trait t)))))) :
    complete_trait_impl acc ctx = acc := by
  rcases h with h1 | ⟨ib, h1, h2⟩ | h3 | ⟨ib, h1, hres⟩
  · simp [complete_trait_impl, h1]
  · simp [complete_trait_impl, h1, h2]
  · cases h1 : ctx.impl_block with
    | none => simp [complete_trait_impl, h1]
    | some ib =>
      cases h2 : ib.item_list with
      | none => simp [complete_trait_impl, h1, h2]
      | some il => simp [complete_trait_impl, h1, h2, h3]
  · apply complete_of_resolve_none acc ctx ib h1
    rcases hres with htt | ⟨tr, htt, hcast⟩ | ⟨pt, htt, hpath⟩ | ⟨pt, p, htt, hpath, hr⟩
    · simp [resolve_target_trait, htt]
    · simp [resolve_target_trait, htt, hcast]
    · simp [resolve_target_trait, htt, PathType.cast, hpath]
    · cases hrp : ctx.resolve_path p with
      | none => simp [resolve_target_trait, htt, PathType.cast, hpath, hrp]
      | some r =>
        cases r with
        | Def d =>
          cases d with
          | Trait t => exact absurd hrp (hr t)
          | OtherDef => simp [resolve_target_trait, htt, PathType.cast, hpath, hrp]
        | NonDef => simp [resolve_target_trait, htt, PathType.cast, hpath, hrp]

/-- Witness for C4: with no impl block at the cursor the operation returns
the accumulator unchanged. -/
theorem c4_failures_yield_no_candidates_witness :
    complete_trait_impl [] ctxNoBlock = [] :=
  c4_failures_yield_no_candidates [] ctxNoBlock (Or.inl rfl)

/-- Counterexample for C5: the zero-parameter callable `fn foo<T>();`
(mirroring the in-tree `generic_fn` snapshot test) is named `foo` and takes
zero parameters, yet its produced candidate's insertion text is
`fn foo<T>() \x7b\x7d`, not `fn foo() \x7b\x7d`. -/
theorem c5_zero_param_insertion_counterexample :
    fooGeneric.params = [] ∧ fooGeneric.name = "foo"
    ∧ (complete_trait_impl [] ctxGeneric).map CompletionItem.insert_text
        = [some "fn foo<T>() \x7b\x7d"]
    ∧ (complete_trait_impl [] ctxGeneric).map CompletionItem.insert_text
        ≠ [some "fn foo() \x7b\x7d"] :=
  ⟨rfl, rfl, rfl, by decide⟩

/-- C5 (amended): a missing zero-parameter callable with no generic parameter
list, no return type and no constraint clause yields label `fn <name>()` and
insertion text `fn <name>() \x7b\x7d`; a missing callable with at least one
parameter yields label `fn <name>(..)`. -/
theorem c5_plain_zero_param_contract (acc : Completions) (ctx : CompletionContext)
    (nm : String) (sp : Bool) (d : Option String) (p : String) (ps : List String)
    (g r w : Option String) :
    (add_function_impl acc ctx
        { name := nm, params := [], has_self_param := sp, docs := d
        , generic_params := none, ret_type := none, where_clause := none }
      = acc ++ [{ completion_kind := CompletionKind.Magic
                , source_range := ctx.source_range
                , label := "fn " ++ nm ++ "()"
                , lookup := some ("fn " ++ nm ++ "()")
                , documentation := d
                , insert_text := some ("fn " ++ nm ++ "() \x7b\x7d")
                , kind := some (if sp then CompletionItemKind.Method
                                else CompletionItemKind.Function) }])
    ∧ (add_function_impl acc ctx
        { name := nm, params := p :: ps, has_self_param := sp, docs := d
        , generic_params := g, ret_type := r, where_clause := w }).map
          CompletionItem.label
        = acc.map CompletionItem.label ++ ["fn " ++ nm ++ "(..)"] := by
  constructor
  · simp [add_function_impl, function_candidate, FunctionSignature.from_hir,
      FunctionSignature.render, String.intercalate, String.append_empty,
      String.append_assoc,
      show ("(" : String) ++ (")" ++ " \x7b\x7d") = "() \x7b\x7d" from rfl]
  · simp [add_function_impl, function_candidate, List.map_append, Nat.succ_pos]

/-- Counterexample for C6: the missing plain callable `foo` produces the
label `fn foo()`, which is neither `foo()` nor `foo(..)` — the label carries
a `fn ` prefix the claim omits. -/
theorem c6_label_counterexample :
    (complete_trait_impl [] ctxPlain).map CompletionItem.label = ["fn foo()"]
    ∧ ¬ (("fn foo()" : String) = "foo" ++ "()"
         ∨ ("fn foo()" : String) = "foo" ++ "(..)") :=
  ⟨rfl, by decide⟩

/-- C6 (amended): for every missing callable member, the candidate's label is
exactly `fn <name>()` when the member takes zero parameters, and exactly
`fn <name>(..)` otherwise. -/
theorem c6_label_has_fn_prefix (acc : Completions) (ctx : CompletionContext)
    (nm : String) (sp : Bool) (d : Option String) (p : String) (ps : List String)
    (g r w : Option String) (g0 r0 w0 : Option String) :
    (add_function_impl acc ctx
        { name := nm, params := [], has_self_param := sp, docs := d
        , generic_params := g0, ret_type := r0, where_clause := w0 }).map
          CompletionItem.label
        = acc.map CompletionItem.label ++ ["fn " ++ nm ++ "()"]
    ∧ (add_function_impl acc ctx
        { name := nm, params := p :: ps, has_self_param := sp, docs := d
        , generic_params := g, ret_type := r, where_clause := w }).map
          CompletionItem.label
        = acc.map CompletionItem.label ++ ["fn " ++ nm ++ "(..)"] := by
  constructor
  · simp [add_function_impl, function_candidate, List.map_append]
  · simp [add_function_impl, function_candidate, List.map_append, Nat.succ_pos]

/-- C7: when a constraint clause is declared, the insertion text reproduces
the generic parameter list and places the constraint clause on its own line
(after a newline) between the rest of the signature and the body marker
` \x7b\x7d`; with no constraint clause the body marker follows the signature
on the same line, with no newline inserted. -/
theorem c7_where_clause_layout (acc : Completions) (ctx : CompletionContext)
    (nm : String) (sp : Bool) (d : Option String) (ps : List String)
    (gs ws : String) (r : Option String) :
    (add_function_impl acc ctx
        { name := nm, params := ps, has_self_param := sp, docs := d
        , generic_params := some gs, ret_type := r, where_clause := some ws }).map
          CompletionItem.insert_text
        = acc.map CompletionItem.insert_text
          ++ [some ("fn " ++ nm ++ gs ++ "(" ++ String.intercalate ", " ps ++ ")"
                ++ (match r with
                    | some t => " -> " ++ t
                    | none => "")
                ++ "\n" ++ ws ++ " \x7b\x7d")]
    ∧ (add_function_impl acc ctx
        { name := nm, params := ps, has_self_param := sp, docs := d
        , generic_params := some gs, ret_type := r, where_clause := none }).map
          CompletionItem.insert_text
        = acc.map CompletionItem.insert_text
          ++ [some ("fn " ++ nm ++ gs ++ "(" ++ String.intercalate ", " ps ++ ")"
                ++ (match r with
                    | some t => " -> " ++ t
                    | none => "")
                ++ " \x7b\x7d")] := by
  constructor
  · simp [add_function_impl, function_candidate, FunctionSignature.from_hir,
      FunctionSignature.render, String.append_assoc]
  · simp [add_function_impl, function_candidate, FunctionSignature.from_hir,
      FunctionSignature.render, String.append_assoc, String.append_empty]

/-- C8: a missing associated type named `nm` yields a candidate whose
insertion text is exactly `type nm = ` (assignment token, trailing space,
nothing after), whose label equals that insertion text, whose kind is
`TypeAlias`, and whose documentation is copied from the trait member. -/
theorem c8_type_alias_stub (acc : Completions) (ctx : CompletionContext)
    (nm : String) (d : Option String) :
    add_type_alias_impl acc ctx { name := nm, docs := d }
      = acc ++ [{ completion_kind := CompletionKind.Magic
                , source_range := ctx.source_range
                , label := "type " ++ nm ++ " = "
                , lookup := none
                , documentation := d
                , insert_text := some ("type " ++ nm ++ " = ")
                , kind := some CompletionItemKind.TypeAlias }] := rfl

/-- C9: the candidate sequence the operation emits is a function of the
context alone — two invocations on the same inputs emit identical sequences,
whatever candidates were already accumulated; the embedding is a pure
function, so no state is carried between invocations. -/
theorem c9_deterministic_candidates (ctx : CompletionContext)
    (acc₁ acc₂ : Completions) :
    (complete_trait_impl acc₁ ctx).drop acc₁.length
      = (complete_trait_impl acc₂ ctx).drop acc₂.length := by
  rw [complete_trait_impl_append acc₁, complete_trait_impl_append acc₂,
    List.drop_left, List.drop_left]

/-- C10: the operation only appends to the accumulator — every candidate
present before the call is still present, unchanged, and in its original
position, with any new candidates following. -/
theorem c10_append_only (acc : Completions) (ctx : CompletionContext) :
    complete_trait_impl acc ctx = acc ++ complete_trait_impl [] ctx :=
  complete_trait_impl_append acc ctx
